import Mathlib

/-!
# Verification of kitty `tabs.py` (Tab / TabManager focus management)

Shallow embedding of the tab/window grouping and focus-management core of
`kitty/tabs.py`.  Windows and tabs are modelled by their ids and the fields
this core reads; stateful methods become pure functions returning the new
state together with a trace of observable side effects (focus notifications,
native calls, redraw wakeups).  External collaborators (the LayoutStrategy,
the native registries) are parameters, exactly as the code treats them.
-/

namespace Kitty

/-- Observable side effects emitted by operations of the core.
`focus wid b` is `Window.focus_changed(b)` on window `wid`;
`layoutCall s` records an invocation of a LayoutStrategy method named `s`;
the remaining constructors record the corresponding native / chrome calls. -/
inductive Ev where
  | focus (wid : Nat) (gained : Bool)
  | relayoutBorders
  | markTabBarDirty
  | wakeup
  | layoutCall (method : String)
  | logError (msg : String)
  | addChild (wid : Nat)
  | removeWindowNative (wid : Nat)
  | removeTabNative (tid : Nat)
  | setActiveTabNative (idx : Int)
  | swapTabsNative (idx nidx : Nat)
  | tabbarVisibilityChanged
  | destroyTab (tid : Nat)
  deriving DecidableEq, Repr

/-- A window, reduced to the fields `tabs.py` reads and writes:
its id and the two optional sides of the overlay relation. -/
structure Window where
  id : Nat
  overlay_for : Option Nat := none
  overlay_window_id : Option Nat := none
  deriving DecidableEq, Repr

/-- Python's `str.lower()` as it applies to layout names, which are ASCII:
map each character, shifting `A`-`Z` down into `a`-`z`. -/
def pyLower (s : String) : String :=
  ⟨s.data.map (fun c =>
    if 65 ≤ c.toNat ∧ c.toNat ≤ 90 then Char.ofNat (c.toNat + 32) else c)⟩

/-- `max(0, min(val, n - 1))` as in the two index setters; `n` is a
collection length, so for `n = 0` the subtraction is `-1` over `Int`
(Python semantics) and the result clamps to `0`. -/
def clampIdx (val : Int) (n : Nat) : Nat :=
  (max 0 (min val ((n : Int) - 1))).toNat

/-- A `Tab`: its native id, the ordered window collection (`self.windows`),
the stored `_active_window_idx`, the lower-cased `enabled_layouts` list, the
name of the current layout object, and whether `tab_manager_ref()` still
resolves (the weak back-reference). -/
structure Tab where
  id : Nat
  windows : List Window
  activeWindowIdx : Nat
  enabled_layouts : List String
  currentLayout : String
  tmAlive : Bool := true
  deriving DecidableEq, Repr

/-- `Tab.active_window`: `self.windows[self.active_window_idx] if self.windows else None`. -/
def Tab.active_window (t : Tab) : Option Window :=
  if t.windows = [] then none else t.windows[t.activeWindowIdx]?

/-- The `active_window_idx` property setter of `Tab` (`tabs.py` lines 74-93):
resolve the window at the old stored index (`None` on lookup failure), clamp
the requested value into `[0, len-1]`, resolve the window at the new index,
and when the two resolved windows differ notify loss then gain of focus and,
if the manager is alive, relayout borders and mark the tab bar dirty. -/
def Tab.setActiveWindowIdx (t : Tab) (val : Int) : Tab × List Ev :=
  let oldW := t.windows[t.activeWindowIdx]?
  let newIdx := clampIdx val t.windows.length
  let newW := t.windows[newIdx]?
  let t' := { t with activeWindowIdx := newIdx }
  if oldW ≠ newW then
    (t',
      (match oldW with
        | some w => [Ev.focus w.id false]
        | none => []) ++
      (match newW with
        | some w => [Ev.focus w.id true]
        | none => []) ++
      (if t.tmAlive then [Ev.relayoutBorders, Ev.markTabBarDirty] else []))
  else
    (t', [])

/-- `deque.append` followed by `if len > 64: popleft()`: push `x` at the
most-recent end of the history and evict the oldest entry past capacity 64. -/
def capPush (h : List Nat) (x : Nat) : List Nat :=
  let h2 := h ++ [x]
  if 64 < h2.length then h2.tail else h2

/-- A `TabManager`: its OS window id, the ordered tab list, the stored
`_active_tab_idx` and the recency history `active_tab_history` (oldest entry
first, most recent last, matching deque append-right / pop-right). -/
structure TabManager where
  os_window_id : Nat := 0
  tabs : List Tab
  activeTabIdx : Nat
  active_tab_history : List Nat := []
  deriving DecidableEq, Repr

/-- `TabManager.active_tab`: `self.tabs[self.active_tab_idx] if self.tabs else None`. -/
def TabManager.active_tab (m : TabManager) : Option Tab :=
  if m.tabs = [] then none else m.tabs[m.activeTabIdx]?

/-- The `active_tab_idx` property setter of `TabManager` (`tabs.py` lines
320-342): resolve the old active tab; when it resolves, push its id on the
recency history (cap 64).  Clamp the requested value, resolve the new tab,
and when old and new differ notify the outgoing tab's active window of focus
loss then the incoming tab's active window of focus gain. -/
def TabManager.setActiveTabIdx (m : TabManager) (val : Int) : TabManager × List Ev :=
  let oldTab := m.tabs[m.activeTabIdx]?
  let hist :=
    match oldTab with
    | some t => capPush m.active_tab_history t.id
    | none => m.active_tab_history
  let newIdx := clampIdx val m.tabs.length
  let newTab := m.tabs[newIdx]?
  let m' := { m with activeTabIdx := newIdx, active_tab_history := hist }
  if oldTab ≠ newTab then
    (m',
      (match oldTab.bind Tab.active_window with
        | some w => [Ev.focus w.id false]
        | none => []) ++
      (match newTab.bind Tab.active_window with
        | some w => [Ev.focus w.id true]
        | none => []))
  else
    (m', [])

/-- `TabManager._set_active_tab`: assign via the setter then call the native
`set_active_tab` with the same (unclamped) argument. -/
def TabManager.setActiveTab (m : TabManager) (idx : Int) : TabManager × List Ev :=
  let r := m.setActiveTabIdx idx
  (r.1, r.2 ++ [Ev.setActiveTabNative idx])

/-- `TabManager.set_active_tab_idx`: `_set_active_tab`, then border relayout
of the active tab and a tab-bar dirty mark. -/
def TabManager.set_active_tab_idx (m : TabManager) (idx : Int) : TabManager × List Ev :=
  let r := m.setActiveTab idx
  (r.1, r.2 ++ [Ev.relayoutBorders, Ev.markTabBarDirty])

/-- `TabManager._add_tab`: append the tab; when the count crosses from
below 2 to above 1, call `tabbar_visibility_changed`. -/
def TabManager.addTab (m : TabManager) (t : Tab) : TabManager × List Ev :=
  let before := m.tabs.length
  let tabs2 := m.tabs ++ [t]
  ({ m with tabs := tabs2 },
    if 1 < tabs2.length ∧ before < 2 then [Ev.tabbarVisibilityChanged] else [])

/-- `TabManager._remove_tab`: native `remove_tab`, excise the tab from the
list, and when the count crosses from above 1 to below 2, call
`tabbar_visibility_changed`. -/
def TabManager.removeTabOnly (m : TabManager) (t : Tab) : TabManager × List Ev :=
  let before := m.tabs.length
  let tabs2 := m.tabs.erase t
  ({ m with tabs := tabs2 },
    Ev.removeTabNative t.id ::
      (if tabs2.length < 2 ∧ 1 < before then [Ev.tabbarVisibilityChanged] else []))

/-- The pop-and-skip loop of `TabManager.remove` (`tabs.py` lines 450-458),
acting on the history reversed so its head is the most recent entry: pop
entries, skipping those equal to the removed tab's id and those matching no
current tab; return the remaining (reversed) history and the found index,
`-1` when the history is exhausted. -/
def findNextActiveAux (histRev : List Nat) (removedId : Nat) (tabs : List Tab) :
    List Nat × Int :=
  match histRev with
  | [] => ([], -1)
  | tid :: rest =>
    if tid = removedId then findNextActiveAux rest removedId tabs
    else
      match tabs.findIdx? (fun q => q.id = tid) with
      | some idx => (rest, (idx : Int))
      | none => findNextActiveAux rest removedId tabs

/-- `TabManager.remove` (`tabs.py` lines 448-463): `_remove_tab`, then the
history pop-and-skip loop; on exhaustion fall back to the previous active
index clamped into the shortened tab list; `_set_active_tab` on the result,
mark the tab bar dirty, destroy the tab. -/
def TabManager.remove (m : TabManager) (t : Tab) : TabManager × List Ev :=
  let r1 := m.removeTabOnly t
  let m1 := r1.1
  let fr := findNextActiveAux m1.active_tab_history.reverse t.id m1.tabs
  let next : Int :=
    if fr.2 < 0 then max 0 (min (m1.activeTabIdx : Int) ((m1.tabs.length : Int) - 1))
    else fr.2
  let m2 := { m1 with active_tab_history := fr.1.reverse }
  let r3 := m2.setActiveTab next
  (r3.1, r1.2 ++ r3.2 ++ [Ev.markTabBarDirty, Ev.destroyTab t.id])

/-- Swap the elements at positions `i` and `j`
(`self.tabs[idx], self.tabs[nidx] = self.tabs[nidx], self.tabs[idx]`). -/
def listSwap {α : Type} (l : List α) (i j : Nat) : List α :=
  match l[i]?, l[j]? with
  | some a, some b => (l.set i b).set j a
  | _, _ => l

/-- `TabManager.move_tab` (`tabs.py` lines 432-439): when more than one tab
exists, swap the active tab with the one `delta` positions away (cyclically),
propagate the same index pair to the native `swap_tabs`, and re-select the
moved tab's new position; otherwise do nothing. -/
def TabManager.move_tab (m : TabManager) (delta : Int) : TabManager × List Ev :=
  if 1 < m.tabs.length then
    let idx := m.activeTabIdx
    let len := m.tabs.length
    let nidx := (((idx : Int) + (len : Int) + delta) % (len : Int)).toNat
    let m1 := { m with tabs := listSwap m.tabs idx nidx }
    let r2 := m1.setActiveTab (nidx : Int)
    (r2.1, Ev.swapTabsNative idx nidx :: r2.2 ++ [Ev.markTabBarDirty])
  else
    (m, [])

/-- One layout-driven structural operation on a tab, the common shape of
`new_window` / `remove_window` / `nth_window` / `_next_window` /
`move_window` / `relayout`: the LayoutStrategy mutates the window collection
in place (yielding `ws`) and returns an active index `val` (any integer),
which is applied through the `active_window_idx` setter. -/
def Tab.applyLayout (t : Tab) (ws : List Window) (val : Int) : Tab × List Ev :=
  Tab.setActiveWindowIdx { t with windows := ws } val

/-- Run a sequence of layout-driven operations, each given by the window
collection the strategy produced and the index it returned. -/
def Tab.runLayoutOps (t : Tab) (ops : List (List Window × Int)) : Tab :=
  ops.foldl (fun s op => (Tab.applyLayout s op.1 op.2).1) t

/-- `Tab.relayout`: when windows exist, call the current layout object
(`call` models `self.current_layout.__call__`, dispatched on the layout
name) and apply the returned index via the setter; then relayout borders. -/
def Tab.relayout (call : String → List Window → Nat → Int) (t : Tab) : Tab × List Ev :=
  let r :=
    if t.windows = [] then (t, ([] : List Ev))
    else
      let r0 := t.setActiveWindowIdx (call t.currentLayout t.windows t.activeWindowIdx)
      (r0.1, Ev.layoutCall "call" :: r0.2)
  (r.1, r.2 ++ [Ev.relayoutBorders])

/-- `Tab.goto_layout` (`tabs.py` lines 156-162): lower-case the requested
name; if it is not among the enabled layouts, log an error and return with
the tab unchanged; otherwise instantiate the layout object for the
lower-cased name and relayout. -/
def Tab.goto_layout (call : String → List Window → Nat → Int)
    (t : Tab) (layout_name : String) : Tab × List Ev :=
  let ln := pyLower layout_name
  if ln ∈ t.enabled_layouts then
    let r := Tab.relayout call { t with currentLayout := ln }
    (r.1, r.2)
  else
    (t, [Ev.logError ("Unknown or disabled layout: " ++ ln)])

/-- `Tab.set_active_window_idx` (`tabs.py` lines 222-227): only when the
requested index differs from the stored one, delegate to the strategy's
`set_active_window` (`sa`), apply the returned index via the setter,
relayout borders and post a wakeup. -/
def Tab.set_active_window_idx (sa : List Window → Int → Int)
    (t : Tab) (idx : Int) : Tab × List Ev :=
  if idx ≠ (t.activeWindowIdx : Int) then
    let r := t.setActiveWindowIdx (sa t.windows idx)
    (r.1, Ev.layoutCall "set_active_window" :: r.2 ++ [Ev.relayoutBorders, Ev.wakeup])
  else
    (t, [])

/-- Mutate the first window whose id is `oid` (the object Python's
`next(w for w in self.windows if w.id == overlay_for)` picks and mutates). -/
def updateFirstWindow (ws : List Window) (oid : Nat) (f : Window → Window) : List Window :=
  match ws with
  | [] => []
  | w :: rest => if w.id = oid then f w :: rest else w :: updateFirstWindow rest oid f

/-- `Tab.new_window` (`tabs.py` lines 195-207), after the child launch: the
new `Window` object gets the fresh id `newId`.  When `overlay_for` is given,
the first window with that id must exist (`next` raises `StopIteration`
otherwise, modelled as an error); the new window records `overlay_for` and
the target records `overlay_window_id`.  Then the window is registered
(`add_child`), the strategy's `add_window` (`addW`, mutating the deque and
returning the index) is applied via the setter, borders are relaid out and a
wakeup posted; the window object is returned. -/
def Tab.new_window (addW : List Window → Window → Nat → List Window × Int)
    (t : Tab) (newId : Nat) (overlay_for : Option Nat) :
    Except String (Tab × Window × List Ev) :=
  let window : Window := { id := newId }
  let linked : Except String (List Window × Window) :=
    match overlay_for with
    | none => .ok (t.windows, window)
    | some oid =>
      match t.windows.find? (fun w => w.id = oid) with
      | none => .error "StopIteration: no window with id equal to overlay_for"
      | some _ =>
        .ok (updateFirstWindow t.windows oid
              (fun w => { w with overlay_window_id := some newId }),
             { window with overlay_for := some oid })
  match linked with
  | .error e => .error e
  | .ok (ws, window) =>
    let ar := addW ws window t.activeWindowIdx
    let r := Tab.setActiveWindowIdx { t with windows := ar.1 } ar.2
    .ok (r.1, window,
      Ev.addChild window.id :: Ev.layoutCall "add_window" ::
        r.2 ++ [Ev.relayoutBorders, Ev.wakeup])

/-- The windows-empty-or-valid-index invariant I1 for a tab. -/
def Tab.idxInv (t : Tab) : Prop :=
  t.activeWindowIdx < t.windows.length ∨ t.windows = []

instance (t : Tab) : Decidable t.idxInv := by
  unfold Tab.idxInv; infer_instance

/-! ## Sample values used by witnesses and concrete scenarios -/

def sampleWindow : Window := { id := 11 }

def sampleTab : Tab :=
  { id := 1, windows := [sampleWindow], activeWindowIdx := 0,
    enabled_layouts := ["tall", "stack"], currentLayout := "tall" }

/-- Is this event a `focus_changed` notification? -/
def isFocusEv : Ev → Bool
  | Ev.focus _ _ => true
  | _ => false

/-- The subtrace of `focus_changed` notifications in a trace. -/
def focusEvents (evs : List Ev) : List Ev := evs.filter isFocusEv

/-- The new-active-tab rule as the spec words it, for comparison with the
code: pop the recency history from the most-recent end (`hist` is given
most-recent-first), skipping entries equal to the removed tab's id and
entries matching no currently existing tab, and take the first surviving
match's position; if the history is exhausted, clamp the previous active
index into the (shortened) tab list. -/
def specNextActive (hist : List Nat) (removedId : Nat) (tabs : List Tab)
    (prevIdx : Nat) : Nat :=
  match hist with
  | [] => min prevIdx (tabs.length - 1)
  | tid :: rest =>
    if tid = removedId then specNextActive rest removedId tabs prevIdx
    else
      match tabs.findIdx? (fun q => q.id = tid) with
      | some idx => idx
      | none => specNextActive rest removedId tabs prevIdx

/-! Concrete scenario for C3: tabs `[A, B, C]`, `A` initially active. -/

def tabA : Tab :=
  { id := 1, windows := [{ id := 101 }], activeWindowIdx := 0,
    enabled_layouts := ["tall"], currentLayout := "tall" }

def tabB : Tab :=
  { id := 2, windows := [{ id := 102 }], activeWindowIdx := 0,
    enabled_layouts := ["tall"], currentLayout := "tall" }

def tabC : Tab :=
  { id := 3, windows := [{ id := 103 }], activeWindowIdx := 0,
    enabled_layouts := ["tall"], currentLayout := "tall" }

def scenarioManager : TabManager :=
  { tabs := [tabA, tabB, tabC], activeTabIdx := 0 }

/-- The cyclic target index of `move_tab`:
`(idx + len(tabs) + delta) % len(tabs)` with Python `%` semantics. -/
def moveTabTarget (m : TabManager) (delta : Int) : Nat :=
  (((m.activeTabIdx : Int) + (m.tabs.length : Int) + delta) %
    (m.tabs.length : Int)).toNat

/-! ## Helper lemmas -/

lemma clampIdx_lt_of_pos (val : Int) {n : Nat} (h : 0 < n) : clampIdx val n < n := by
  unfold clampIdx; omega

lemma clampIdx_of_lt {k n : Nat} (h : k < n) : clampIdx (k : Int) n = k := by
  unfold clampIdx; omega

lemma setActiveWindowIdx_fst (t : Tab) (val : Int) :
    (t.setActiveWindowIdx val).1 =
      { t with activeWindowIdx := clampIdx val t.windows.length } := by
  simp only [Tab.setActiveWindowIdx, apply_ite Prod.fst, ite_self]

lemma applyLayout_inv (t : Tab) (ws : List Window) (val : Int) :
    ((Tab.applyLayout t ws val).1).idxInv := by
  unfold Tab.applyLayout
  rw [setActiveWindowIdx_fst]
  rcases ws.eq_nil_or_concat with h | ⟨l, a, h⟩
  · exact Or.inr h
  · refine Or.inl ?_
    apply clampIdx_lt_of_pos
    simp [h]

lemma runLayoutOps_inv :
    ∀ (ops : List (List Window × Int)) (t : Tab), ops ≠ [] →
      (Tab.runLayoutOps t ops).idxInv := by
  intro ops
  induction ops with
  | nil => intro t h; exact absurd rfl h
  | cons op rest ih =>
    intro t _
    rcases rest.eq_nil_or_concat with h | ⟨l, a, h⟩
    · subst h
      exact applyLayout_inv t op.1 op.2
    · have : Tab.runLayoutOps t (op :: rest) =
          Tab.runLayoutOps (Tab.applyLayout t op.1 op.2).1 rest := rfl
      rw [this]
      exact ih _ (by simp [h])

/-! ## Claims -/

/-- C1: after every layout-driven insert/remove/move/navigation operation on
a Tab — each of which routes the strategy's returned index through the
`active_window_idx` setter — the stored index satisfies
`0 ≤ active_window_idx < len(windows)` or the window collection is empty;
and the setter clamps any integer into that range whenever the collection is
non-empty (leaving the collection itself untouched). -/
theorem tab_active_idx_invariant :
    (∀ (t : Tab) (ops : List (List Window × Int)) (i : Nat), i < ops.length →
      (Tab.runLayoutOps t (ops.take (i + 1))).idxInv) ∧
    (∀ (t : Tab) (val : Int), t.windows ≠ [] →
      (t.setActiveWindowIdx val).1.activeWindowIdx < t.windows.length ∧
      (t.setActiveWindowIdx val).1.windows = t.windows) := by
  constructor
  · intro t ops i hi
    apply runLayoutOps_inv
    have : (ops.take (i + 1)).length = i + 1 := by
      rw [List.length_take]
      omega
    intro hnil
    rw [hnil] at this
    simp at this
  · intro t val hne
    rw [setActiveWindowIdx_fst]
    refine ⟨?_, rfl⟩
    apply clampIdx_lt_of_pos
    exact List.length_pos.mpr hne

theorem tab_active_idx_invariant_witness :
    (Tab.runLayoutOps sampleTab ([([sampleWindow], 5)].take (0 + 1))).idxInv ∧
    (Tab.setActiveWindowIdx sampleTab (-3)).1.activeWindowIdx <
      sampleTab.windows.length :=
  ⟨tab_active_idx_invariant.1 sampleTab [([sampleWindow], 5)] 0 (by decide),
   (tab_active_idx_invariant.2 sampleTab (-3) (by decide)).1⟩

/-- C10: calling `Tab.set_active_window_idx` with an index equal to the
currently stored active-window index is a complete no-op: no strategy call,
no focus notification, no border relayout, no wakeup, and the tab state is
returned unchanged. -/
theorem set_active_window_idx_same_noop
    (sa : List Window → Int → Int) (t : Tab) (idx : Int)
    (h : idx = (t.activeWindowIdx : Int)) :
    Tab.set_active_window_idx sa t idx = (t, []) := by
  unfold Tab.set_active_window_idx
  simp [h]

theorem set_active_window_idx_same_noop_witness :
    Tab.set_active_window_idx (fun _ i => i + 7) sampleTab 0 = (sampleTab, []) :=
  set_active_window_idx_same_noop (fun _ i => i + 7) sampleTab 0 (by decide)

lemma setActiveWindowIdx_snd (t : Tab) (val : Int) :
    (t.setActiveWindowIdx val).2 =
      if t.windows[t.activeWindowIdx]? =
          t.windows[clampIdx val t.windows.length]? then []
      else
        (match t.windows[t.activeWindowIdx]? with
          | some w => [Ev.focus w.id false]
          | none => []) ++
        (match t.windows[clampIdx val t.windows.length]? with
          | some w => [Ev.focus w.id true]
          | none => []) ++
        (if t.tmAlive then [Ev.relayoutBorders, Ev.markTabBarDirty] else []) := by
  unfold Tab.setActiveWindowIdx
  by_cases h : t.windows[t.activeWindowIdx]? =
      t.windows[clampIdx val t.windows.length]? <;> simp [h]

lemma setActiveTabIdx_snd (m : TabManager) (val : Int) :
    (m.setActiveTabIdx val).2 =
      if m.tabs[m.activeTabIdx]? = m.tabs[clampIdx val m.tabs.length]? then []
      else
        (match (m.tabs[m.activeTabIdx]?).bind Tab.active_window with
          | some w => [Ev.focus w.id false]
          | none => []) ++
        (match (m.tabs[clampIdx val m.tabs.length]?).bind Tab.active_window with
          | some w => [Ev.focus w.id true]
          | none => []) := by
  unfold TabManager.setActiveTabIdx
  by_cases h : m.tabs[m.activeTabIdx]? =
      m.tabs[clampIdx val m.tabs.length]? <;> simp [h]

/-- C2: for every assignment to `Tab.active_window_idx` and to
`TabManager.active_tab_idx`, when the entity resolved at the old stored
index differs from the one at the new clamped index, exactly one
`focus_changed(False)` on the outgoing side (its active window, for tabs) —
if present — followed by exactly one `focus_changed(True)` on the incoming
side — if present — fires, in that order; when the two resolved identities
coincide (including both absent), no `focus_changed` fires. -/
theorem focus_notification_exactness :
    (∀ (t : Tab) (val : Int),
      focusEvents (t.setActiveWindowIdx val).2 =
        if t.windows[t.activeWindowIdx]? =
            t.windows[clampIdx val t.windows.length]? then []
        else
          (match t.windows[t.activeWindowIdx]? with
            | some w => [Ev.focus w.id false]
            | none => []) ++
          (match t.windows[clampIdx val t.windows.length]? with
            | some w => [Ev.focus w.id true]
            | none => [])) ∧
    (∀ (m : TabManager) (val : Int),
      focusEvents (m.setActiveTabIdx val).2 =
        if m.tabs[m.activeTabIdx]? = m.tabs[clampIdx val m.tabs.length]? then []
        else
          (match (m.tabs[m.activeTabIdx]?).bind Tab.active_window with
            | some w => [Ev.focus w.id false]
            | none => []) ++
          (match (m.tabs[clampIdx val m.tabs.length]?).bind Tab.active_window with
            | some w => [Ev.focus w.id true]
            | none => [])) := by
  constructor
  · intro t val
    rw [focusEvents, setActiveWindowIdx_snd]
    by_cases h : t.windows[t.activeWindowIdx]? =
        t.windows[clampIdx val t.windows.length]?
    · simp [h]
    · rcases h1 : t.windows[t.activeWindowIdx]? with _ | w1 <;>
      rcases h2 : t.windows[clampIdx val t.windows.length]? with _ | w2 <;>
      simp [h, h1, h2, isFocusEv, List.filter_append,
        apply_ite (List.filter isFocusEv)]
  · intro m val
    rw [focusEvents, setActiveTabIdx_snd]
    by_cases h : m.tabs[m.activeTabIdx]? = m.tabs[clampIdx val m.tabs.length]?
    · simp [h]
    · rcases h1 : (m.tabs[m.activeTabIdx]?).bind Tab.active_window with _ | w1 <;>
      rcases h2 : (m.tabs[clampIdx val m.tabs.length]?).bind Tab.active_window
          with _ | w2 <;>
      simp [h, h1, h2, isFocusEv, List.filter_append]

/-- C4: every assignment to `TabManager.active_tab_idx` pushes the id of the
tab stored at the old active index onto the recency history (with the cap-64
eviction) — for every requested value, including ones whose clamp equals the
old index — except when the old index does not resolve to a tab, in which
case the history is untouched. -/
theorem history_push_on_every_assignment :
    ∀ (m : TabManager) (val : Int),
      (m.setActiveTabIdx val).1.active_tab_history =
        match m.tabs[m.activeTabIdx]? with
        | some t => capPush m.active_tab_history t.id
        | none => m.active_tab_history := by
  intro m val
  unfold TabManager.setActiveTabIdx
  rcases h : m.tabs[m.activeTabIdx]? with _ | t <;>
    simp [h, apply_ite Prod.fst, ite_self]

/-- C5: the recency history is capped at 64 entries with oldest-first
eviction: a push keeps the length at most 64, a push onto a full history
drops exactly the oldest entry, and pushing 100 distinct ids retains exactly
the 64 most recent ones. -/
theorem recency_history_cap :
    (∀ (h : List Nat) (x : Nat), h.length ≤ 64 → (capPush h x).length ≤ 64) ∧
    (∀ (h : List Nat) (x : Nat), h.length = 64 → capPush h x = h.tail ++ [x]) ∧
    List.foldl capPush [] (List.range 100) = List.range' 36 64 := by
  refine ⟨?_, ?_, by set_option maxRecDepth 10000 in decide⟩
  · intro h x hle
    simp only [capPush, apply_ite List.length, List.length_tail, List.length_append,
      List.length_singleton]
    split <;> omega
  · intro h x hlen
    rcases h with _ | ⟨a, h2⟩
    · simp at hlen
    · have hl : h2.length = 63 := by simpa using hlen
      simp [capPush, hl]

theorem recency_history_cap_witness :
    (capPush (List.range 64) 99).length ≤ 64 ∧
    capPush (List.range 64) 99 = (List.range 64).tail ++ [99] :=
  ⟨recency_history_cap.1 (List.range 64) 99 (by decide),
   recency_history_cap.2.1 (List.range 64) 99 (by decide)⟩

lemma setActiveTabIdx_fst (m : TabManager) (val : Int) :
    (m.setActiveTabIdx val).1 =
      { m with
        activeTabIdx := clampIdx val m.tabs.length,
        active_tab_history :=
          match m.tabs[m.activeTabIdx]? with
          | some t => capPush m.active_tab_history t.id
          | none => m.active_tab_history } := by
  unfold TabManager.setActiveTabIdx
  rcases h : m.tabs[m.activeTabIdx]? with _ | t <;>
    simp [h, apply_ite Prod.fst, ite_self]

lemma findNextActiveAux_clamp (rid : Nat) (tabs : List Tab) (prev : Nat) :
    ∀ histRev : List Nat,
      clampIdx
        (if (findNextActiveAux histRev rid tabs).2 < 0 then
          max 0 (min (prev : Int) ((tabs.length : Int) - 1))
        else (findNextActiveAux histRev rid tabs).2) tabs.length
      = specNextActive histRev rid tabs prev := by
  intro histRev
  induction histRev with
  | nil =>
    simp only [findNextActiveAux, specNextActive, clampIdx]
    omega
  | cons tid rest ih =>
    by_cases h : tid = rid
    · simpa only [findNextActiveAux, specNextActive, if_pos h] using ih
    · rcases hf : tabs.findIdx? (fun q => q.id = tid) with _ | idx
      · simpa only [findNextActiveAux, specNextActive, if_neg h, hf] using ih
      · have hlt : idx < tabs.length :=
          (List.findIdx?_eq_some_iff_findIdx_eq.mp hf).1
        simp only [findNextActiveAux, specNextActive, if_neg h, hf]
        rw [if_neg (by omega)]
        exact clampIdx_of_lt hlt

/-- C3: after `TabManager.remove(tab)`, the stored active index equals the
spec's rule — pop the recency history from the most-recent end, skip the
removed tab's id and ids of no-longer-existing tabs, activate the first
surviving match, else clamp the previous index into the shortened list.
Concretely, for tabs `[A, B, C]` with `A` active, after activating `B`,
then `C`, then removing `C`, the active tab is `B`. -/
theorem remove_reactivates_from_history :
    (∀ (m : TabManager) (t : Tab), t ∈ m.tabs →
      (m.remove t).1.activeTabIdx =
        specNextActive m.active_tab_history.reverse t.id (m.tabs.erase t)
          m.activeTabIdx) ∧
    ((((scenarioManager.set_active_tab_idx 1).1.set_active_tab_idx 2).1.remove
        tabC).1.active_tab = some tabB) := by
  constructor
  · intro m t _
    show (TabManager.setActiveTab _ _).1.activeTabIdx = _
    rw [TabManager.setActiveTab, setActiveTabIdx_fst]
    exact findNextActiveAux_clamp t.id (m.tabs.erase t) m.activeTabIdx
      m.active_tab_history.reverse
  · decide

theorem remove_reactivates_from_history_witness :
    (scenarioManager.remove tabC).1.activeTabIdx =
      specNextActive scenarioManager.active_tab_history.reverse tabC.id
        (scenarioManager.tabs.erase tabC) scenarioManager.activeTabIdx :=
  remove_reactivates_from_history.1 scenarioManager tabC (by decide)

/-- C6: `tabbar_visibility_changed` — the tab-bar geometry recompute with
the full tabs-only resize — fires exactly at the 1-to-2 and 2-to-1
tab-count crossings: `_add_tab` triggers it iff exactly one tab existed
before, and `_remove_tab` of a present tab triggers it iff exactly two tabs
existed before. -/
theorem tabbar_visibility_at_boundary :
    (∀ (m : TabManager) (t : Tab),
      (m.addTab t).2 =
        if m.tabs.length = 1 then [Ev.tabbarVisibilityChanged] else []) ∧
    (∀ (m : TabManager) (t : Tab), t ∈ m.tabs →
      (m.removeTabOnly t).2 =
        Ev.removeTabNative t.id ::
          (if m.tabs.length = 2 then [Ev.tabbarVisibilityChanged] else [])) := by
  constructor
  · intro m t
    simp only [TabManager.addTab, List.length_append, List.length_singleton]
    by_cases h : m.tabs.length = 1
    · rw [if_pos (by omega), if_pos h]
    · rw [if_neg (by omega), if_neg h]
  · intro m t ht
    have he := List.length_erase_add_one ht
    simp only [TabManager.removeTabOnly]
    by_cases h : m.tabs.length = 2
    · rw [if_pos (by omega), if_pos h]
    · rw [if_neg (by omega), if_neg h]

theorem tabbar_visibility_at_boundary_witness :
    (scenarioManager.removeTabOnly tabB).2 =
      Ev.removeTabNative tabB.id ::
        (if scenarioManager.tabs.length = 2 then [Ev.tabbarVisibilityChanged]
         else []) :=
  tabbar_visibility_at_boundary.2 scenarioManager tabB (by decide)

lemma listSwap_length {α : Type} (l : List α) (i j : Nat) :
    (listSwap l i j).length = l.length := by
  unfold listSwap
  split <;> simp

lemma listSwap_getElem?_right {α : Type} {l : List α} {i j : Nat}
    (hi : i < l.length) (hj : j < l.length) :
    (listSwap l i j)[j]? = l[i]? := by
  unfold listSwap
  rw [List.getElem?_eq_getElem hi, List.getElem?_eq_getElem hj]
  rw [List.getElem?_set_eq_of_lt _ (by simpa using hj)]

lemma moveTabTarget_lt (m : TabManager) (delta : Int) (h : 0 < m.tabs.length) :
    moveTabTarget m delta < m.tabs.length := by
  unfold moveTabTarget
  have h0 : ((m.tabs.length : Int)) ≠ 0 := by omega
  have h1 := Int.emod_nonneg ((m.activeTabIdx : Int) + (m.tabs.length : Int) + delta) h0
  have h2 := Int.emod_lt_of_pos ((m.activeTabIdx : Int) + (m.tabs.length : Int) + delta)
    (by omega : (0 : Int) < (m.tabs.length : Int))
  omega

/-- C7: with more than one tab, `move_tab` swaps the active tab with the one
at `(idx + len + delta) mod len`, passes that exact index pair to the native
`swap_tabs`, and re-selects the active index at the moved tab's new
position, so the active tab (by identity) is unchanged; with at most one
tab, `move_tab` does nothing. -/
theorem move_tab_preserves_active_identity :
    (∀ (m : TabManager) (delta : Int), m.tabs.length ≤ 1 →
      m.move_tab delta = (m, [])) ∧
    (∀ (m : TabManager) (delta : Int), 1 < m.tabs.length →
      m.activeTabIdx < m.tabs.length →
      (m.move_tab delta).1.active_tab = m.tabs[m.activeTabIdx]? ∧
      (m.move_tab delta).1.activeTabIdx = moveTabTarget m delta ∧
      (m.move_tab delta).1.tabs = listSwap m.tabs m.activeTabIdx (moveTabTarget m delta) ∧
      (m.move_tab delta).2.head? =
        some (Ev.swapTabsNative m.activeTabIdx (moveTabTarget m delta))) := by
  constructor
  · intro m delta h
    unfold TabManager.move_tab
    rw [if_neg (by omega)]
  · intro m delta h hidx
    have hpos : 0 < m.tabs.length := by omega
    have htgt := moveTabTarget_lt m delta hpos
    have hmt : m.move_tab delta =
        (let nidx := moveTabTarget m delta
         let m1 : TabManager := { m with tabs := listSwap m.tabs m.activeTabIdx nidx }
         ((m1.setActiveTab (nidx : Int)).1,
          Ev.swapTabsNative m.activeTabIdx nidx ::
            (m1.setActiveTab (nidx : Int)).2 ++ [Ev.markTabBarDirty])) := by
      unfold TabManager.move_tab
      rw [if_pos h]
      rfl
    rw [hmt]
    simp only [TabManager.setActiveTab, setActiveTabIdx_fst]
    have hlen : (listSwap m.tabs m.activeTabIdx (moveTabTarget m delta)).length =
        m.tabs.length := listSwap_length _ _ _
    have hclamp : clampIdx ((moveTabTarget m delta : Nat) : Int)
        (listSwap m.tabs m.activeTabIdx (moveTabTarget m delta)).length =
        moveTabTarget m delta := by
      rw [hlen]; exact clampIdx_of_lt htgt
    refine ⟨?_, by simpa using hclamp, by simp, by simp⟩
    show TabManager.active_tab _ = _
    unfold TabManager.active_tab
    have hne : listSwap m.tabs m.activeTabIdx (moveTabTarget m delta) ≠ [] := by
      intro hcon
      rw [hcon] at hlen
      simp at hlen
      omega
    rw [if_neg hne]
    simp only [hclamp]
    exact listSwap_getElem?_right hidx htgt

theorem move_tab_preserves_active_identity_witness :
    (scenarioManager.move_tab 1).1.active_tab =
      scenarioManager.tabs[scenarioManager.activeTabIdx]? ∧
    (scenarioManager.move_tab 1).1.activeTabIdx = moveTabTarget scenarioManager 1 :=
  ⟨(move_tab_preserves_active_identity.2 scenarioManager 1 (by decide) (by decide)).1,
   (move_tab_preserves_active_identity.2 scenarioManager 1 (by decide) (by decide)).2.1⟩

/-- C8: `goto_layout` is case-insensitive in the layout name —
`goto_layout("TALL")` and `goto_layout("tall")` are the same operation — and
for a name whose lower-casing is not among the enabled layouts it logs an
error and returns with the tab (in particular `current_layout`) unchanged. -/
theorem goto_layout_case_insensitive :
    (∀ (call : String → List Window → Nat → Int) (t : Tab),
      Tab.goto_layout call t "TALL" = Tab.goto_layout call t "tall") ∧
    (∀ (call : String → List Window → Nat → Int) (t : Tab) (layout_name : String),
      pyLower layout_name ∉ t.enabled_layouts →
      Tab.goto_layout call t layout_name =
        (t, [Ev.logError ("Unknown or disabled layout: " ++ pyLower layout_name)])) := by
  constructor
  · intro call t
    simp only [Tab.goto_layout,
      show pyLower "TALL" = pyLower "tall" from by decide]
  · intro call t layout_name h
    simp only [Tab.goto_layout, if_neg h]

theorem goto_layout_case_insensitive_witness :
    Tab.goto_layout (fun _ _ _ => 0) sampleTab "Nonexistent" =
      (sampleTab,
        [Ev.logError ("Unknown or disabled layout: " ++ pyLower "Nonexistent")]) :=
  goto_layout_case_insensitive.2 (fun _ _ _ => 0) sampleTab "Nonexistent" (by decide)

lemma updateFirstWindow_mem {ws : List Window} {oid : Nat} {w1 : Window}
    {f : Window → Window}
    (h : ws.find? (fun w => w.id = oid) = some w1) :
    f w1 ∈ updateFirstWindow ws oid f := by
  induction ws with
  | nil => simp at h
  | cons w rest ih =>
    by_cases hw : w.id = oid
    · rw [List.find?_cons_of_pos _ (by simpa using hw)] at h
      cases h
      unfold updateFirstWindow
      rw [if_pos hw]
      exact List.mem_cons_self _ _
    · rw [List.find?_cons_of_neg _ (by simpa using hw)] at h
      unfold updateFirstWindow
      rw [if_neg hw]
      exact List.mem_cons_of_mem _ (ih h)

/-- C9: `new_window` with `overlay_for` equal to the id of an existing
window `W1` records the mutual non-owning overlay relation — the returned
window `W2` has `overlay_for = W1.id` and the collection afterwards contains
`W1` updated with `overlay_window_id = W2.id` (provided the layout's
`add_window` keeps existing windows, as every layout does) — while an
`overlay_for` matching no current window makes the lookup fail and the error
propagate, instead of silently creating an unlinked window. -/
theorem new_window_overlay_linkage :
    (∀ (addW : List Window → Window → Nat → List Window × Int) (t : Tab)
        (newId oid : Nat),
      t.windows.find? (fun w => w.id = oid) = none →
      Tab.new_window addW t newId (some oid) =
        Except.error "StopIteration: no window with id equal to overlay_for") ∧
    (∀ (addW : List Window → Window → Nat → List Window × Int) (t : Tab)
        (newId oid : Nat) (w1 : Window),
      t.windows.find? (fun w => w.id = oid) = some w1 →
      (∀ (ws : List Window) (w : Window) (i : Nat) (x : Window),
        x ∈ ws → x ∈ (addW ws w i).1) →
      ∃ (t2 : Tab) (w2 : Window) (evs : List Ev),
        Tab.new_window addW t newId (some oid) = Except.ok (t2, w2, evs) ∧
        w2.overlay_for = some oid ∧ w2.id = newId ∧ w1.id = oid ∧
        { w1 with overlay_window_id := some newId } ∈ t2.windows) := by
  constructor
  · intro addW t newId oid h
    unfold Tab.new_window
    simp only [h]
  · intro addW t newId oid w1 hfind haddW
    have hid : w1.id = oid := by
      have := List.find?_some hfind
      simpa using this
    unfold Tab.new_window
    simp only [hfind]
    refine ⟨_, _, _, rfl, rfl, rfl, hid, ?_⟩
    rw [setActiveWindowIdx_fst]
    exact haddW _ _ _ _ (updateFirstWindow_mem hfind)

theorem new_window_overlay_linkage_witness :
    Tab.new_window (fun ws w _ => (ws ++ [w], (ws.length : Int))) sampleTab 12
      (some 99) =
      Except.error "StopIteration: no window with id equal to overlay_for" :=
  new_window_overlay_linkage.1 (fun ws w _ => (ws ++ [w], (ws.length : Int)))
    sampleTab 12 99 (by decide)

end Kitty
